import Mathlib

/-!
Verification of the grading core of the `relate` course application
(`course/page.py`, `course/grades.py`, `course/constants.py`).

Conventions of the embedding:
* Python numbers (grades, correctness values, tolerances) are modelled as `ℚ`.
* Fallible constructors and functions that may raise become `Except String`.
* `None`-or-value results become `Option`.
* External collaborators (markup rendering, template rendering, the random
  shuffler, the code-execution sandbox response) are passed in as explicit
  arguments.
-/

namespace Relate

/-- The three-valued normalized-answer representation of
`AnswerFeedback.normalized_answer` (course/page.py): a present HTML string,
`None` meaning no answer was provided, or `NoNormalizedAnswerAvailable`. -/
inductive NormalizedAnswer where
  | value (s : String)
  | noAnswer
  | notAvailable
deriving DecidableEq

/-- One-decimal fixed-point rendering of a nonnegative rational, modelling the
Python `"%.1f"` format used by `get_auto_feedback` (ties are rounded up rather
than to even; the difference is invisible on the inputs the code produces). -/
def formatFixed1 (x : ℚ) : String :=
  let n : ℤ := round (10 * x)
  toString (n / 10) ++ "." ++ toString (n % 10)

/-- `get_auto_feedback` (course/page.py:86-98).  The Python-2 comparison
semantics make all numeric comparisons false for `None`, so the `None` case
is equivalent to matching it first. -/
def get_auto_feedback (correctness : Option ℚ) : String :=
  match correctness with
  | none => "(No information on correctness of answer.)"
  | some c =>
    if c = 0 then "Your answer is not correct."
    else if c = 1 then "Your answer is correct."
    else if 1/2 < c then
      "Your answer is mostly correct. (" ++ formatFixed1 (100 * c) ++ " %)"
    else
      "Your answer is somewhat correct. (" ++ formatFixed1 (100 * c) ++ " %)"

/-- The `AnswerFeedback` value type (course/page.py:101-136). -/
structure AnswerFeedback where
  correctness : Option ℚ
  feedback : String
  normalized_answer : NormalizedAnswer
deriving DecidableEq

/-- `AnswerFeedback.__init__` (course/page.py:125-136): rejects a present
correctness outside `[0, 1]` (Python raises `ValueError`), and fills in
auto-generated feedback when none is supplied. -/
def AnswerFeedback.make (correctness : Option ℚ) (feedback : Option String)
    (normalized_answer : NormalizedAnswer) : Except String AnswerFeedback :=
  match correctness with
  | some c =>
    if c < 0 ∨ 1 < c then .error "Invalid correctness value"
    else .ok ⟨some c, feedback.getD (get_auto_feedback (some c)), normalized_answer⟩
  | none => .ok ⟨none, feedback.getD (get_auto_feedback none), normalized_answer⟩

/-- The JSON-like record produced by `AnswerFeedback.as_json`: the outer
`Option` on `normalized_answer` models presence of the key, the inner one
models a JSON `null`. -/
structure AFJson where
  correctness : Option ℚ
  feedback : String
  normalized_answer : Option (Option String)
deriving DecidableEq

/-- `AnswerFeedback.as_json` (course/page.py:138-147): the
`normalized_answer` key is omitted exactly in the `NoNormalizedAnswerAvailable`
case. -/
def AnswerFeedback.as_json (af : AnswerFeedback) : AFJson :=
  ⟨af.correctness, af.feedback,
    match af.normalized_answer with
    | .notAvailable => none
    | .noAnswer => some none
    | .value s => some (some s)⟩

/-- `AnswerFeedback.from_json` (course/page.py:149-156): re-runs the
constructor, restoring `NoNormalizedAnswerAvailable` for a missing key. -/
def AnswerFeedback.from_json (j : AFJson) : Except String AnswerFeedback :=
  AnswerFeedback.make j.correctness (some j.feedback)
    (match j.normalized_answer with
     | none => .notAvailable
     | some none => .noAnswer
     | some (some s) => .value s)

/-! ## Regular-expression matching

`RegexMatcher` (course/page.py:772-795) compiles its pattern with Python
`re` and grades by `self.pattern.match(s)`, which anchors the pattern at the
*start* of the input only.  The `re` library is external; we model a
compiled pattern as an abstract syntax tree with character classes, choice,
concatenation, repetition, and the end anchor `$` (modelled as strict
end-of-input).  A leading `^` asserts exactly the position at which
`re.match` starts matching, so it compiles to nothing.  `re.IGNORECASE`
(the `re_flags` of `RegexMatcher`; `CaseSensitiveRegexMatcher` overrides it
to `0`) is modelled by the `ci` flag threaded through matching. -/

/-- A character class as a list of inclusive ranges. -/
abbrev CharRanges := List (Char × Char)

/-- Raw membership of a character in a class. -/
def inRanges (rs : CharRanges) (c : Char) : Bool :=
  rs.any (fun p => decide (p.1 ≤ c) && decide (c ≤ p.2))

/-- Class membership under an optional ignore-case flag: with `ci` set, a
character also matches via its lower- or upper-cased form. -/
def clsMem (ci : Bool) (rs : CharRanges) (c : Char) : Bool :=
  inRanges rs c || (ci && (inRanges rs c.toLower || inRanges rs c.toUpper))

/-- Abstract syntax of a compiled pattern. -/
inductive Regex where
  | fail
  | eps
  | endAnchor
  | cls (rs : CharRanges)
  | alt (r₁ r₂ : Regex)
  | cat (r₁ r₂ : Regex)
  | star (r : Regex)
deriving DecidableEq

/-- `r+` as in the pattern `[0-9]+`. -/
def Regex.plus (r : Regex) : Regex := .cat r (.star r)

/-- Does `r` accept the empty word at a position that is *not* the end of
the input?  (`$` does not.) -/
def Regex.nullMid : Regex → Bool
  | .fail => false
  | .eps => true
  | .endAnchor => false
  | .cls _ => false
  | .alt r₁ r₂ => r₁.nullMid || r₂.nullMid
  | .cat r₁ r₂ => r₁.nullMid && r₂.nullMid
  | .star _ => true

/-- Does `r` accept the empty word at the end of the input?  (`$` does.) -/
def Regex.nullEnd : Regex → Bool
  | .fail => false
  | .eps => true
  | .endAnchor => true
  | .cls _ => false
  | .alt r₁ r₂ => r₁.nullEnd || r₂.nullEnd
  | .cat r₁ r₂ => r₁.nullEnd && r₂.nullEnd
  | .star _ => true

/-- Brzozowski derivative of `r` by the character `c`. -/
def Regex.deriv (ci : Bool) (c : Char) : Regex → Regex
  | .fail => .fail
  | .eps => .fail
  | .endAnchor => .fail
  | .cls rs => if clsMem ci rs c then .eps else .fail
  | .alt r₁ r₂ => .alt (r₁.deriv ci c) (r₂.deriv ci c)
  | .cat r₁ r₂ =>
    if r₁.nullMid then .alt (.cat (r₁.deriv ci c) r₂) (r₂.deriv ci c)
    else .cat (r₁.deriv ci c) r₂
  | .star r => .cat (r.deriv ci c) (.star r)

/-- Does `r` match some prefix of `s`?  This is the semantics of Python
`re.match`: anchored at the start, free at the end. -/
def Regex.matchPrefix (ci : Bool) : Regex → List Char → Bool
  | r, [] => r.nullEnd
  | r, c :: s => r.nullMid || (r.deriv ci c).matchPrefix ci s

/-- Declarative matching semantics over suffixes of the input:
`Matches ci r s t` holds when `r` consumes characters turning the remaining
input `s` into the remaining input `t`; the end anchor demands that the
remaining input be empty. -/
inductive Matches (ci : Bool) : Regex → List Char → List Char → Prop where
  | eps (s) : Matches ci .eps s s
  | endAnchor : Matches ci .endAnchor [] []
  | cls (rs c s) : clsMem ci rs c = true → Matches ci (.cls rs) (c :: s) s
  | altL (r₁ r₂ s t) : Matches ci r₁ s t → Matches ci (.alt r₁ r₂) s t
  | altR (r₁ r₂ s t) : Matches ci r₂ s t → Matches ci (.alt r₁ r₂) s t
  | cat (r₁ r₂ s t u) : Matches ci r₁ s t → Matches ci r₂ t u →
      Matches ci (.cat r₁ r₂) s u
  | starNil (r s) : Matches ci (.star r) s s
  | starCons (r s t u) : Matches ci r s t → Matches ci (.star r) t u →
      Matches ci (.star r) s u

/-- `RegexMatcher.grade` (course/page.py:787-792): 1 when the
case-insensitively compiled pattern matches at the start of the input,
0 otherwise. -/
def regexMatcherGrade (pattern : Regex) (s : String) : ℕ :=
  if pattern.matchPrefix true s.data then 1 else 0

/-- `CaseSensitiveRegexMatcher` (course/page.py:798-801): identical grading
but compiled with `re_flags = 0`, i.e. case-sensitively. -/
def caseSensRegexMatcherGrade (pattern : Regex) (s : String) : ℕ :=
  if pattern.matchPrefix false s.data then 1 else 0

/-- The compiled form of the pattern `"^[0-9]+$"`. -/
def digitsFullPattern : Regex :=
  .cat (Regex.plus (.cls [('0', '9')])) .endAnchor

/-- The compiled form of the pattern `"^[0-9]+"` (no end anchor). -/
def digitsStartPattern : Regex :=
  Regex.plus (.cls [('0', '9')])

/-! ## Text-answer matchers and `TextQuestion` -/

/-- Value of a (already-validated) digit string. -/
def digitsToNat (cs : List Char) : ℕ :=
  cs.foldl (fun acc c => 10 * acc + (c.toNat - ('0').toNat)) 0

/-- Exponent part of a float literal: everything after the `e`/`E` must be
an optional sign followed by at least one digit. -/
def parseExpTail (r : List Char) : Option ℤ :=
  let p : ℤ × List Char := match r with
    | '+' :: t => ((1 : ℤ), t)
    | '-' :: t => ((-1 : ℤ), t)
    | t => ((1 : ℤ), t)
  let q := p.2.span (·.isDigit)
  if q.1.isEmpty || !q.2.isEmpty then none
  else some (p.1 * digitsToNat q.1)

/-- Model of Python `float(s)` on finite decimal literals
(`[+-]? digits [. digits] [(e|E) [+-]? digits]`), used by
`FloatMatcher.validate`/`grade`.  The value is kept exact as a rational;
`inf`/`nan`/whitespace handling is not modelled.  `none` models the
`ValueError` Python raises on a malformed literal. -/
def parseFloat (s : String) : Option ℚ :=
  let p : ℚ × List Char := match s.data with
    | '+' :: t => ((1 : ℚ), t)
    | '-' :: t => ((-1 : ℚ), t)
    | t => ((1 : ℚ), t)
  let ip : List Char × List Char := p.2.span (fun c => c.isDigit)
  let fp : List Char × List Char := match ip.2 with
    | '.' :: t => t.span (fun c => c.isDigit)
    | t => ([], t)
  let hadDot : Bool := match ip.2 with
    | '.' :: _ => true
    | _ => false
  let rest := if hadDot then fp.2 else ip.2
  if ip.1.isEmpty && fp.1.isEmpty then none
  else
    let mantissa : ℚ :=
      p.1 * ((digitsToNat ip.1 : ℚ)
        + (digitsToNat fp.1 : ℚ) / ((10 : ℚ) ^ fp.1.length))
    match rest with
    | [] => some mantissa
    | 'e' :: t => (parseExpTail t).map (fun ex => mantissa * (10 : ℚ) ^ ex)
    | 'E' :: t => (parseExpTail t).map (fun ex => mantissa * (10 : ℚ) ^ ex)
    | _ => none

/-- The struct-valued descriptor of a `FloatMatcher`
(course/page.py:863-878): required `value`, optional `rtol`/`atol`. -/
structure FloatMatcherDesc where
  value : ℚ
  rtol : Option ℚ
  atol : Option ℚ
deriving DecidableEq

/-- `FloatMatcher.grade` (course/page.py:888-901) on the parsed value:
the absolute-tolerance check runs first and disqualifies (0) when the
deviation reaches `atol`; otherwise, when `rtol` is configured, the
relative check divides by `abs(value)` — which raises `ZeroDivisionError`
(modelled `none`) when the target value is 0 — and disqualifies (0) when
the ratio reaches `rtol`; passing every configured check gives 1. -/
def floatMatcherGradeVal (d : FloatMatcherDesc) (x : ℚ) : Option ℕ :=
  if (match d.atol with
      | some a => decide (a ≤ |x - d.value|)
      | none => false) then some 0
  else if d.rtol.isSome ∧ d.value = 0 then none
  else if (match d.rtol with
      | some r => decide (r ≤ |x - d.value| / |d.value|)
      | none => false) then some 0
  else some 1

/-- `FloatMatcher.grade` on the submitted string: `float(s)` then the
tolerance test; `none` models the exceptions escaping `grade` — the
`ValueError` on an unparsable input (the form layer normally rejects
those first) and the `ZeroDivisionError` of the relative check at target
value 0. -/
def floatMatcherGrade (d : FloatMatcherDesc) (s : String) : Option ℕ :=
  (parseFloat s).bind (floatMatcherGradeVal d)

/-- Display-only model of Python `str(value)` for
`FloatMatcher.correct_answer_text`. -/
def floatValueStr (q : ℚ) : String := toString q

/-- The closed set of text-answer matchers (course/page.py:907-914).
`symExpr` models `SymbolicExpressionMatcher`: sympy's simplifier is an
external collaborator, so the matcher carries its 0/1 equivalence decision
as an opaque predicate together with the pattern text. -/
inductive TextAnswerMatcher where
  | caseSensPlain (pattern : String)
  | plain (pattern : String)
  | regex (pattern : Regex)
  | caseSensRegex (pattern : Regex)
  | symExpr (pattern : String) (equivalent : String → Bool)
  | float (desc : FloatMatcherDesc)

/-- The per-class `is_case_sensitive` attribute. -/
def TextAnswerMatcher.is_case_sensitive : TextAnswerMatcher → Bool
  | .caseSensPlain _ => true
  | .plain _ => false
  | .regex _ => false
  | .caseSensRegex _ => true
  | .symExpr _ _ => true
  | .float _ => false

/-- The `grade(s)` methods of the concrete matchers: each returns 0 or 1;
`none` models the float matcher's parse exception. -/
def TextAnswerMatcher.grade (m : TextAnswerMatcher) (s : String) : Option ℕ :=
  match m with
  | .caseSensPlain p => some (if p = s then 1 else 0)
  | .plain p => some (if p.toLower = s.toLower then 1 else 0)
  | .regex r => some (regexMatcherGrade r s)
  | .caseSensRegex r => some (caseSensRegexMatcherGrade r s)
  | .symExpr _ equiv => some (if equiv s then 1 else 0)
  | .float d => floatMatcherGrade d s

/-- The `correct_answer_text()` methods: regex matchers return `None`. -/
def TextAnswerMatcher.correct_answer_text : TextAnswerMatcher → Option String
  | .caseSensPlain p => some p
  | .plain p => some p
  | .regex _ => none
  | .caseSensRegex _ => none
  | .symExpr p _ => some p
  | .float d => some (floatValueStr d.value)

/-- `django.utils.html.escape`, character by character. -/
def htmlEscape (s : String) : String :=
  s.data.foldl (fun acc c =>
    acc ++ (if c = '&' then "&amp;"
      else if c = '<' then "&lt;"
      else if c = '>' then "&gt;"
      else if c = '"' then "&quot;"
      else if c = Char.ofNat 39 then "&#39;"
      else String.singleton c)) ""

/-- Python-2 ordering of the optional correct-answer strings appearing as
second tuple components in `TextQuestion.grade`: `None` sorts below every
string. -/
def pyNoneStrLt : Option String → Option String → Bool
  | none, some _ => true
  | none, none => false
  | some _, none => false
  | some a, some b => decide (a < b)

/-- Python-2 lexicographic `<` on the `(grade, correct_answer_text)` pairs
over which `TextQuestion.grade` takes `max`. -/
def pairLt (a b : ℕ × Option String) : Bool :=
  decide (a.1 < b.1) || (a.1 == b.1 && pyNoneStrLt a.2 b.2)

/-- Python `max` over a nonempty list: keeps the current element unless a
strictly greater one appears. -/
def pyMaxFold (p : ℕ × Option String) (rest : List (ℕ × Option String)) :
    ℕ × Option String :=
  rest.foldl (fun acc x => if pairLt acc x then x else acc) p

/-- The `(matcher.grade(answer), matcher.correct_answer_text())` pairs that
`TextQuestion.grade` maxes over; `none` models a matcher raising while
grading (float parse failure). -/
def gradedPairs (ms : List TextAnswerMatcher) (ans : String) :
    Option (List (ℕ × Option String)) :=
  match ms with
  | [] => some []
  | m :: rest =>
    match m.grade ans, gradedPairs rest ans with
    | some g, some ps => some ((g, m.correct_answer_text) :: ps)
    | _, _ => none

/-- A `TextQuestion` as far as grading is concerned: its parsed matcher
list (validation guarantees it is nonempty and that some matcher can
display a correct answer). -/
structure TextQuestion where
  matchers : List TextAnswerMatcher

/-- The persisted `answer_data` of a text question: the stripped submitted
string under the `"answer"` key. -/
structure TextAnswerData where
  answer : String

/-- `TextQuestion.grade` (course/page.py:1059-1076).  `none` `answer_data`
yields the fixed no-answer feedback; otherwise the `(grade, text)` pairs of
all matchers are maxed lexicographically and the first component becomes
the correctness; the displayed normalized answer is lower-cased when no
matcher is case-sensitive, then HTML-escaped.  Errors model the Python
exceptions (float parse failure inside a matcher, `max` on an empty
sequence, invalid correctness). -/
def textQuestionGrade (q : TextQuestion) (answer_data : Option TextAnswerData) :
    Except String AnswerFeedback :=
  match answer_data with
  | none => AnswerFeedback.make (some 0) (some "No answer provided.") .notAvailable
  | some ad =>
    let answer := ad.answer
    match gradedPairs q.matchers answer with
    | none => .error "ValueError: could not convert string to float"
    | some [] => .error "max() arg is an empty sequence"
    | some (p :: rest) =>
      let best := pyMaxFold p rest
      let normalized :=
        if q.matchers.any (fun m => m.is_case_sensitive) then answer
        else answer.toLower
      AnswerFeedback.make (some (best.1 : ℚ)) none (.value (htmlEscape normalized))

/-- `TextQuestion.correct_answer` (course/page.py:1078-1090): walks the
matchers, keeps the first `correct_answer_text()` that is not `None`, and
then `assert`s its truthiness before formatting the display string — so an
empty supplied text, like no supplied text at all, raises `AssertionError`
(modelled `none`). -/
def textQuestionCorrectAnswer (q : TextQuestion) : Option String :=
  match q.matchers.findSome? TextAnswerMatcher.correct_answer_text with
  | some t =>
    if t = "" then none
    else some ("A correct answer is: \x27" ++ t ++ "\x27.")
  | none => none

/-! ## Choice question -/

/-- `ChoiceQuestion.CORRECT_TAG` (course/page.py:1143). -/
def CORRECT_TAG : String := "~CORRECT~"

/-- `ChoiceQuestion.process_choice_string` (course/page.py:1145-1152):
strips the correct tag (via `course.content.remove_prefix`, not among the
sources, modelled directly from its use) and renders markup — markup
rendering is an external collaborator, modelled as the identity. -/
def process_choice_string (s : String) : String :=
  if s.startsWith CORRECT_TAG then s.drop CORRECT_TAG.length else s

/-- The grading-relevant fields of a `ChoiceQuestion` descriptor: the
choice list (validation requires at least one tagged correct) and the
optional `shuffle` flag. -/
structure ChoiceQuestionDesc where
  choices : List String
  shuffle : Option Bool

/-- `ChoiceQuestion.unpermuted_correct_indices` (course/page.py:1234-1240):
the indices of choices carrying the `~CORRECT~` tag. -/
def unpermuted_correct_indices (q : ChoiceQuestionDesc) : List ℕ :=
  (q.choices.enum.filter (fun p => p.2.startsWith CORRECT_TAG)).map Prod.fst

/-- The page data stored once at flow-session start: the permutation of
choice positions. -/
structure ChoicePageData where
  permutation : List ℕ

/-- `ChoiceQuestion.make_page_data` (course/page.py:1191-1197):
`range(len(choices))`, shuffled by `random.shuffle` only when the `shuffle`
attribute is present and true.  The random shuffle is an external source of
randomness, passed in as `shuffler`. -/
def choiceMakePageData (q : ChoiceQuestionDesc)
    (shuffler : List ℕ → List ℕ) : ChoicePageData :=
  if q.shuffle.getD false then ⟨shuffler (List.range q.choices.length)⟩
  else ⟨List.range q.choices.length⟩

/-- The persisted `answer_data` of a choice question: the selected
(displayed-order) index under the `"choice"` key. -/
structure ChoiceAnswerData where
  choice : ℕ

/-- `ChoiceQuestion.grade` (course/page.py:1242-1259): correctness 1 when
the un-permuted index `permutation[choice]` is tagged correct, else 0.
Python raises `IndexError` for an out-of-range index; the embedding
defaults to 0 and the theorems restrict to in-range selections. -/
def choiceQuestionGrade (q : ChoiceQuestionDesc) (pd : ChoicePageData)
    (answer_data : Option ChoiceAnswerData) : Except String AnswerFeedback :=
  match answer_data with
  | none => AnswerFeedback.make (some 0) (some "No answer provided.") .noAnswer
  | some ad =>
    let src := pd.permutation.getD ad.choice 0
    let correctness : ℚ := if src ∈ unpermuted_correct_indices q then 1 else 0
    AnswerFeedback.make (some correctness) none
      (.value (process_choice_string (q.choices.getD src "")))

/-! ## Python code question -/

/-- The response record of the external code-execution collaborator
(`request_python_run`, course/page.py:1313-1449).  `dict_to_struct`
turns the JSON record into an attribute bag, so field presence
(`hasattr`) is an `Option`; a figure is `(number, mime_type, base64)`. -/
structure RunResponse where
  result : String
  points : Option ℚ
  feedback : Option (List String)
  traceback : Option String
  stdout : Option String
  stderr : Option String
  figures : Option (List (ℕ × String × String))

/-- The persisted `answer_data` of a code question: the stripped code
under the `"answer"` key. -/
structure CodeAnswerData where
  answer : String

/-- Python `"\n".join(...)`. -/
def joinLines : List String → String
  | [] => ""
  | [s] => s
  | s :: t :: rest => s ++ "\n" ++ joinLines (t :: rest)

/-- The timeout paragraph of `PythonCodeQuestion.grade`
(course/page.py:1772-1779). -/
def timeoutFeedback (timeout : ℚ) : String :=
  "<p>Your code took too long to execute. The problem "
    ++ "specifies that your code may take at most " ++ toString timeout
    ++ " seconds to run. "
    ++ "It took longer than that and was aborted.</p>"

/-- The grading-infrastructure-failure paragraph
(course/page.py:1765-1771). -/
def gradingFailedFeedback : String :=
  "<p>The grading code failed. Sorry about that. "
    ++ "The staff has been informed, and if this problem is due "
    ++ "to an issue with the grading code, "
    ++ "it will be fixed as soon as possible. "
    ++ "In the meantime, you\x27ll see a traceback "
    ++ "below that may help you figure out what went wrong.</p>"

/-- The result kinds treated as grading-infrastructure failures
(course/page.py:1705-1710 and 1759-1764). -/
def infraErrorResults : List String :=
  ["uncaught_error", "setup_compile_error", "setup_error",
   "test_compile_error", "test_error"]

/-- The result-kind dispatch of `PythonCodeQuestion.grade`
(course/page.py:1757-1792): the extra feedback paragraph and the final
correctness for each result kind; an unknown kind raises `RuntimeError`.
Infrastructure failures additionally trigger a staff-notification email —
an external fire-and-forget collaborator, not modelled. -/
def resultDispatch (timeout : ℚ) (response : RunResponse)
    (correctness₀ : Option ℚ) : Except String (List String × Option ℚ) :=
  if response.result = "success" then .ok ([], correctness₀)
  else if response.result ∈ infraErrorResults then
    .ok ([gradingFailedFeedback], correctness₀)
  else if response.result = "timeout" then
    .ok ([timeoutFeedback timeout], some 0)
  else if response.result = "user_compile_error" then
    .ok (["<p>Your code failed to compile. An error message is below.</p>"],
      some 0)
  else if response.result = "user_error" then
    .ok (["<p>Your code failed with an exception. "
        ++ "A traceback is below.</p>"], some 0)
  else .error ("invalid cfrunpy result: " ++ response.result)

/-- The optional trailing feedback paragraphs of `PythonCodeQuestion.grade`
(course/page.py:1794-1826), in source order: response feedback items,
traceback, stdout, stderr, figures.  Python truthiness: a present but
empty list/string adds nothing; `figures` is gated on presence alone. -/
def responseExtraBits (response : RunResponse) : List String :=
  (match response.feedback with
    | some items =>
      if items.isEmpty then []
      else ["<p>Here is some feedback on your code:<ul>"
        ++ String.join (items.map (fun it => "<li>" ++ htmlEscape it ++ "</li>"))
        ++ "</ul></p>"]
    | none => [])
  ++ (match response.traceback with
    | some tb =>
      if tb = "" then []
      else ["<p>This is the exception traceback:<pre>"
        ++ htmlEscape tb ++ "</pre></p>"]
    | none => [])
  ++ (match response.stdout with
    | some out =>
      if out = "" then []
      else ["<p>Your code printed the following output:<pre>"
        ++ htmlEscape out ++ "</pre></p>"]
    | none => [])
  ++ (match response.stderr with
    | some err =>
      if err = "" then []
      else ["<p>Your code printed the following error messages:<pre>"
        ++ htmlEscape err ++ "</pre></p>"]
    | none => [])
  ++ (match response.figures with
    | some figs =>
      ["<p>Your code produced the following plots:</p>",
       "<dl class=\"result-figure-list\">"]
      ++ (figs.map (fun f =>
            "<dt>Figure " ++ toString f.1 ++ "<dt>"
            ++ "<dd><img alt=\"Figure " ++ toString f.1 ++ "\" src=\"data:"
            ++ f.2.1 ++ ";base64," ++ f.2.2 ++ "\"></dd>"))
      ++ ["</dl>"]
    | none => [])

/-- `PythonCodeQuestion.grade` (course/page.py:1655-1831) after the run
request: the collaborator response is an input; the run request itself and
the staff email are external calls.  Initial correctness is the response
points when present; the result dispatch may override it; the feedback is
the newline-join of the collected paragraphs. -/
def pythonCodeGrade (timeout : ℚ) (answer_data : Option CodeAnswerData)
    (response : RunResponse) : Except String AnswerFeedback :=
  match answer_data with
  | none => AnswerFeedback.make (some 0) (some "No answer provided.") .noAnswer
  | some ad =>
    let autoBits : List String :=
      match response.points with
      | some p => ["<p><b>" ++ get_auto_feedback (some p) ++ "</b></p>"]
      | none => []
    match resultDispatch timeout response response.points with
    | .error e => .error e
    | .ok (resultBits, correctness) =>
      AnswerFeedback.make correctness
        (some (joinLines (autoBits ++ resultBits ++ responseExtraBits response)))
        (.value ("<pre>" ++ ad.answer ++ "</pre>"))

/-! ## Human-feedback grading -/

/-- The `grade_data` record shared by the human-text-feedback pages
(`PageBaseWithHumanTextFeedback.grade_data_attrs`, course/page.py:539):
released flag, grade percentage, feedback text, internal notes. -/
structure GradeData where
  released : Bool
  grade_percent : Option ℚ
  feedback_text : Option String
  notes : Option String

/-- `PageBaseWithHumanTextFeedback.grade` (course/page.py:602-631).
`markupRender` is the external markup-to-HTML collaborator.  The outer
`Except` models the `AnswerFeedback` constructor raising (a released
`grade_percent` above 100 makes `correctness > 1`); the inner `Option` is
the contract's "no grade yet". -/
def humanTextFeedbackGrade (answer_data : Option Unit)
    (grade_data : Option GradeData) (markupRender : String → String) :
    Except String (Option AnswerFeedback) :=
  match answer_data with
  | none =>
    (AnswerFeedback.make (some 0) (some "No answer provided.") .notAvailable).map
      some
  | some _ =>
    match grade_data with
    | none => .ok none
    | some gd =>
      if !gd.released then .ok none
      else
        match gd.grade_percent with
        | some gp =>
          let correctness := gp / 100
          let fb := "<p>" ++ get_auto_feedback (some correctness) ++ "</p>"
            ++ (match gd.feedback_text with
              | some ft =>
                if ft = "" then ""
                else "<p>The following feedback was provided:<p>" ++ markupRender ft
              | none => "")
          (AnswerFeedback.make (some correctness) (some fb) .notAvailable).map some
        | none => .ok none

/-- The grading-relevant descriptor fields of
`PythonCodeQuestionWithHumanTextFeedback`: the code timeout, the overall
`value` and the `human_feedback_value` (validation enforces
`human_feedback_value ≤ value`). -/
structure PythonCodeHumanQuestionDesc where
  timeout : ℚ
  value : ℚ
  human_feedback_value : ℚ

/-- `PythonCodeQuestionWithHumanTextFeedback.grade`
(course/page.py:1890-1948).  An unreleased `grade_data` is dropped to
`None`; the automatic code grade is then always computed, and the blended
correctness `(code·(value−hfv) + percent/100·hfv)/value` exists only when
both components are available (or `percent/100` alone when the question is
entirely human-graded).  The rendered feedback template is an external
collaborator (`render`).  Note this grade never returns the inner `none`:
even with no released human feedback it produces an `AnswerFeedback` whose
correctness is `None`. -/
def pythonCodeHumanGrade (q : PythonCodeHumanQuestionDesc)
    (answer_data : Option CodeAnswerData) (grade_data : Option GradeData)
    (response : RunResponse) (markupRender : String → String)
    (render : Option ℚ → AnswerFeedback → Option String → Option ℚ → String) :
    Except String (Option AnswerFeedback) :=
  match answer_data with
  | none =>
    (AnswerFeedback.make (some 0) (some "No answer provided.") .notAvailable).map
      some
  | some ad =>
    let gd : Option GradeData :=
      match grade_data with
      | some g => if !g.released then none else some g
      | none => none
    match pythonCodeGrade q.timeout (some ad) response with
    | .error e => .error e
    | .ok code_feedback =>
      let gp : Option ℚ := gd.bind (fun g => g.grade_percent)
      let correctness : Option ℚ :=
        match code_feedback.correctness, gp with
        | some cf, some p =>
          some ((cf * (q.value - q.human_feedback_value)
            + p / 100 * q.human_feedback_value) / q.value)
        | _, _ =>
          match gp with
          | some p =>
            if q.human_feedback_value = q.value then some (p / 100) else none
          | none => none
      let human_feedback_text : Option String :=
        match gd with
        | some g =>
          match g.feedback_text with
          | some ft => some (markupRender ft)
          | none => none
        | none => none
      let percentage : Option ℚ := correctness.map (fun c => c * 100)
      let feedback := render percentage code_feedback human_feedback_text gp
      (AnswerFeedback.make correctness (some feedback) .notAvailable).map some

/-! ## Grade state machine

`GradeStateMachine` lives in `course/models.py`, which is not among the
sources; only its caller `view_gradebook` (course/grades.py:85-98) is.
The machine is therefore modelled from the spec. -/

/-- `MAX_EXTRA_CREDIT_FACTOR` (course/constants.py:31). -/
def MAX_EXTRA_CREDIT_FACTOR : ℚ := 10

/-- `grade_state_change_types` (course/constants.py:221-229). -/
inductive GradeStateChangeType where
  | grading_started
  | graded
  | retrieved
  | unavailable
  | extension
  | report_sent
  | do_over
  | exempt
deriving DecidableEq

/-- `grade_aggregation_strategy` (course/constants.py:179-208). -/
inductive GradeAggregationStrategy where
  | max_grade
  | avg_grade
  | min_grade
  | use_earliest
  | use_latest
deriving DecidableEq

/-- Modelled from the spec: one `GradeChange` event record (spec §3), for a
fixed (participant, opportunity) pair: kind, nullable points, max points,
attempt identifier, timestamp.  The consuming fold receives the list
already ordered by `grade_time`. -/
structure GradeChange where
  kind : GradeStateChangeType
  points : Option ℚ
  max_points : ℚ
  attempt_id : ℕ
  grade_time : ℕ
deriving DecidableEq

/-- The qualitative state of the machine (spec §3). -/
inductive GradeMachineStateKind where
  | do_not_yet_have_grade
  | exempt
  | has_grade
deriving DecidableEq

/-- The output of `consume` (spec §4.1): qualitative state, aggregate
points (absent means no grade yet), max points. -/
structure GradeMachineState where
  state : GradeMachineStateKind
  points : Option ℚ
  max_points : Option ℚ
deriving DecidableEq

/-- Intermediate fold state: the per-attempt `graded` results collected so
far, in event order, and whether an `exempt` was seen (sticky). -/
structure GSMAcc where
  attempts : List (ℕ × ℚ × ℚ)
  is_exempt : Bool

/-- Modelled from the spec: one step of the event fold (spec §4.1).
`graded` records the attempt's latest `(points, max_points)`; `do_over`
and `unavailable` remove the attempt from aggregation; `exempt` is a
sticky override; the remaining kinds do not alter points. -/
def gsmStep (acc : GSMAcc) (e : GradeChange) : GSMAcc :=
  match e.kind with
  | .graded =>
    match e.points with
    | some p =>
      ⟨(acc.attempts.filter (fun a => a.1 ≠ e.attempt_id))
        ++ [(e.attempt_id, p, e.max_points)], acc.is_exempt⟩
    | none => acc
  | .do_over => ⟨acc.attempts.filter (fun a => a.1 ≠ e.attempt_id), acc.is_exempt⟩
  | .unavailable =>
    ⟨acc.attempts.filter (fun a => a.1 ≠ e.attempt_id), acc.is_exempt⟩
  | .exempt => ⟨acc.attempts, true⟩
  | _ => acc

/-- Modelled from the spec: `GradeStateMachine.consume(ordered_events)`
(spec §4.1) for one (participant, opportunity) pair — a pure fold: collect
`graded` attempt results, then aggregate with the opportunity's strategy,
clamp at `MAX_EXTRA_CREDIT_FACTOR` times the max points, and report the
qualitative state (`exempt` sticky, `do_not_yet_have_grade` when no attempt
reached `graded`). -/
def GradeStateMachine.consume (strategy : GradeAggregationStrategy)
    (events : List GradeChange) : GradeMachineState :=
  let acc := events.foldl gsmStep ⟨[], false⟩
  if acc.is_exempt then ⟨.exempt, none, none⟩
  else
    match acc.attempts with
    | [] => ⟨.do_not_yet_have_grade, none, none⟩
    | r :: rest =>
      let pts := (r :: rest).map (fun x => x.2.1)
      let last := (r :: rest).getLast (List.cons_ne_nil r rest)
      let maxp := last.2.2
      let p : ℚ :=
        match strategy with
        | .max_grade => pts.foldl max r.2.1
        | .avg_grade => pts.sum / pts.length
        | .min_grade => pts.foldl min r.2.1
        | .use_earliest => r.2.1
        | .use_latest => last.2.1
      ⟨.has_grade, some (min p (MAX_EXTRA_CREDIT_FACTOR * maxp)), some maxp⟩

/-! ## Theorems -/

/-- What a match leaves over is a suffix of what it started from. -/
theorem Matches.suffix {ci : Bool} {r : Regex} {s t : List Char}
    (h : Matches ci r s t) : t <:+ s := by
  induction h with
  | eps s => exact List.suffix_refl s
  | endAnchor => exact List.suffix_refl []
  | cls rs c s _ => exact List.suffix_cons c s
  | altL _ _ _ _ _ ih => exact ih
  | altR _ _ _ _ _ ih => exact ih
  | cat _ _ _ _ _ _ _ ih₁ ih₂ => exact ih₂.trans ih₁
  | starNil r s => exact List.suffix_refl s
  | starCons _ _ _ _ _ _ ih₁ ih₂ => exact ih₂.trans ih₁

theorem Matches.nullEnd_of {ci : Bool} {r : Regex} {s t : List Char}
    (h : Matches ci r s t) (hs : s = []) : r.nullEnd = true := by
  induction h with
  | eps _ => rfl
  | endAnchor => rfl
  | cls rs c s _ => simp at hs
  | altL _ _ _ _ _ ih => simp [Regex.nullEnd, ih hs]
  | altR _ _ _ _ _ ih => simp [Regex.nullEnd, ih hs]
  | cat _ _ _ _ _ h₁ h₂ ih₁ ih₂ =>
    subst hs
    have ht : _ = ([] : List Char) := List.suffix_nil.mp h₁.suffix
    simp [Regex.nullEnd, ih₁ rfl, ih₂ ht]
  | starNil _ _ => rfl
  | starCons _ _ _ _ _ _ _ _ => rfl

theorem Matches.of_nullEnd {ci : Bool} {r : Regex} (h : r.nullEnd = true) :
    Matches ci r [] [] := by
  induction r with
  | fail => simp [Regex.nullEnd] at h
  | eps => exact .eps []
  | endAnchor => exact .endAnchor
  | cls rs => simp [Regex.nullEnd] at h
  | alt r₁ r₂ ih₁ ih₂ =>
    rcases Bool.or_eq_true_iff.mp h with h' | h'
    · exact .altL _ _ _ _ (ih₁ h')
    · exact .altR _ _ _ _ (ih₂ h')
  | cat r₁ r₂ ih₁ ih₂ =>
    obtain ⟨h₁, h₂⟩ := Bool.and_eq_true_iff.mp h
    exact .cat _ _ _ _ _ (ih₁ h₁) (ih₂ h₂)
  | star r _ => exact .starNil r []

theorem Matches.nullMid_of {ci : Bool} {r : Regex} {s t : List Char}
    (h : Matches ci r s t) (hst : s = t) (hne : s ≠ []) :
    r.nullMid = true := by
  induction h with
  | eps _ => rfl
  | endAnchor => exact absurd rfl hne
  | cls rs c s _ => exact absurd hst (List.cons_ne_self c s)
  | altL _ _ _ _ _ ih => simp [Regex.nullMid, ih hst hne]
  | altR _ _ _ _ _ ih => simp [Regex.nullMid, ih hst hne]
  | cat r₁ r₂ s t u h₁ h₂ ih₁ ih₂ =>
    subst hst
    have hts : t = s :=
      h₁.suffix.eq_of_length
        (Nat.le_antisymm h₁.suffix.length_le h₂.suffix.length_le)
    simp [Regex.nullMid, ih₁ hts.symm hne, ih₂ hts (by rw [hts]; exact hne)]
  | starNil _ _ => rfl
  | starCons _ _ _ _ _ _ _ _ => rfl

theorem Matches.of_nullMid {ci : Bool} {r : Regex} (h : r.nullMid = true)
    (s : List Char) : Matches ci r s s := by
  induction r with
  | fail => simp [Regex.nullMid] at h
  | eps => exact .eps s
  | endAnchor => simp [Regex.nullMid] at h
  | cls rs => simp [Regex.nullMid] at h
  | alt r₁ r₂ ih₁ ih₂ =>
    rcases Bool.or_eq_true_iff.mp h with h' | h'
    · exact .altL _ _ _ _ (ih₁ h')
    · exact .altR _ _ _ _ (ih₂ h')
  | cat r₁ r₂ ih₁ ih₂ =>
    obtain ⟨h₁, h₂⟩ := Bool.and_eq_true_iff.mp h
    exact .cat _ _ _ _ _ (ih₁ h₁) (ih₂ h₂)
  | star r _ => exact .starNil r s

/-- Soundness of the derivative: a match of the derivative extends to a
match of the original pattern consuming `c` first. -/
theorem Matches.of_deriv {ci : Bool} {c : Char} {r : Regex} :
    ∀ {s t : List Char}, Matches ci (r.deriv ci c) s t →
      Matches ci r (c :: s) t := by
  induction r with
  | fail => intro s t h; cases h
  | eps => intro s t h; cases h
  | endAnchor => intro s t h; cases h
  | cls rs =>
    intro s t h
    simp only [Regex.deriv] at h
    split at h
    · cases h
      exact .cls rs c _ (by assumption)
    · cases h
  | alt r₁ r₂ ih₁ ih₂ =>
    intro s t h
    cases h with
    | altL _ _ _ _ h' => exact .altL _ _ _ _ (ih₁ h')
    | altR _ _ _ _ h' => exact .altR _ _ _ _ (ih₂ h')
  | cat r₁ r₂ ih₁ ih₂ =>
    intro s t h
    simp only [Regex.deriv] at h
    split at h
    · cases h with
      | altL _ _ _ _ h' =>
        cases h' with
        | cat _ _ _ _ _ h₁ h₂ => exact .cat _ _ _ _ _ (ih₁ h₁) h₂
      | altR _ _ _ _ h' =>
        exact .cat _ _ _ _ _ (Matches.of_nullMid (by assumption) (c :: s)) (ih₂ h')
    · cases h with
      | cat _ _ _ _ _ h₁ h₂ => exact .cat _ _ _ _ _ (ih₁ h₁) h₂
  | star r ih =>
    intro s t h
    cases h with
    | cat _ _ _ _ _ h₁ h₂ => exact .starCons _ _ _ _ (ih h₁) h₂

/-- Completeness of the derivative: a match of `r` that consumes at least
the first character `c` is a match of the derivative. -/
theorem Matches.deriv_of {ci : Bool} {r : Regex} {s' t : List Char}
    (h : Matches ci r s' t) :
    ∀ {c : Char} {s : List Char}, s' = c :: s → t <:+ s →
      Matches ci (r.deriv ci c) s t := by
  induction h with
  | eps s₀ =>
    intro c s hs ht
    subst hs
    exact absurd ht.length_le (by simp)
  | endAnchor => intro c s hs; simp at hs
  | cls rs c₀ s₀ hm =>
    intro c s hs _
    injection hs with hc hs'
    subst hc
    subst hs'
    simp only [Regex.deriv, if_pos hm]
    exact .eps s₀
  | altL _ _ _ _ h' ih =>
    intro c s hs ht
    exact .altL _ _ _ _ (ih hs ht)
  | altR _ _ _ _ h' ih =>
    intro c s hs ht
    exact .altR _ _ _ _ (ih hs ht)
  | cat r₁ r₂ s₀ t₀ u₀ h₁ h₂ ih₁ ih₂ =>
    intro c s hs ht
    subst hs
    rcases List.suffix_cons_iff.mp h₁.suffix with hteq | hts
    · have hn : r₁.nullMid = true :=
        h₁.nullMid_of hteq.symm (List.cons_ne_nil c s)
      simp only [Regex.deriv, if_pos hn]
      exact .altR _ _ _ _ (ih₂ hteq ht)
    · have hd₁ := ih₁ rfl hts
      simp only [Regex.deriv]
      split
      · exact .altL _ _ _ _ (.cat _ _ _ _ _ hd₁ h₂)
      · exact .cat _ _ _ _ _ hd₁ h₂
  | starNil r₀ s₀ =>
    intro c s hs ht
    subst hs
    exact absurd ht.length_le (by simp)
  | starCons r₀ s₀ t₀ u₀ h₁ h₂ ih₁ ih₂ =>
    intro c s hs ht
    subst hs
    rcases List.suffix_cons_iff.mp h₁.suffix with hteq | hts
    · exact ih₂ hteq ht
    · exact .cat _ _ _ _ _ (ih₁ rfl hts) h₂

/-- The executable prefix matcher agrees with the declarative semantics:
`matchPrefix` succeeds exactly when the pattern matches some prefix of the
input. -/
theorem matchPrefix_iff {ci : Bool} {r : Regex} {s : List Char} :
    r.matchPrefix ci s = true ↔ ∃ t, Matches ci r s t := by
  induction s generalizing r with
  | nil =>
    simp only [Regex.matchPrefix]
    constructor
    · intro h
      exact ⟨[], Matches.of_nullEnd h⟩
    · rintro ⟨t, h⟩
      have : t = [] := List.suffix_nil.mp h.suffix
      exact h.nullEnd_of rfl
  | cons c s ih =>
    simp only [Regex.matchPrefix, Bool.or_eq_true]
    constructor
    · rintro (h | h)
      · exact ⟨c :: s, Matches.of_nullMid h (c :: s)⟩
      · obtain ⟨t, ht⟩ := ih.mp h
        exact ⟨t, ht.of_deriv⟩
    · rintro ⟨t, h⟩
      rcases List.suffix_cons_iff.mp h.suffix with hteq | hts
      · exact Or.inl (h.nullMid_of hteq.symm (List.cons_ne_nil c s))
      · exact Or.inr (ih.mpr ⟨t, h.deriv_of rfl hts⟩)

/-- C6: a regex matcher grades 1 exactly when the pattern matches at the
start of the input — a prefix match, not a full match; grading is 0
otherwise.  The `regex` variant matches case-insensitively and the
`case_sens_regex` variant case-sensitively.  Concretely, `"^[0-9]+$"`
grades `"42abc"` as 0 while the anchor-free `"^[0-9]+"` grades the same
input 1 via its matching prefix, and `"^[0-9]+$"` grades `"4"` as 1. -/
theorem regex_matcher_grade_start_anchored :
    (∀ (r : Regex) (s : String),
      (regexMatcherGrade r s = 1 ↔ ∃ t, Matches true r s.data t)
      ∧ (regexMatcherGrade r s = 0 ↔ ¬∃ t, Matches true r s.data t))
    ∧ (∀ (r : Regex) (s : String),
      (caseSensRegexMatcherGrade r s = 1 ↔ ∃ t, Matches false r s.data t)
      ∧ (caseSensRegexMatcherGrade r s = 0 ↔ ¬∃ t, Matches false r s.data t))
    ∧ regexMatcherGrade digitsFullPattern "42abc" = 0
    ∧ regexMatcherGrade digitsStartPattern "42abc" = 1
    ∧ regexMatcherGrade digitsFullPattern "4" = 1
    ∧ caseSensRegexMatcherGrade (.cls [('a', 'z')]) "A" = 0
    ∧ regexMatcherGrade (.cls [('a', 'z')]) "A" = 1 := by
  have key : ∀ (ci : Bool) (r : Regex) (l : List Char),
      ((if r.matchPrefix ci l then (1:ℕ) else 0) = 1 ↔ ∃ t, Matches ci r l t)
      ∧ ((if r.matchPrefix ci l then (1:ℕ) else 0) = 0
          ↔ ¬∃ t, Matches ci r l t) := by
    intro ci r l
    by_cases hm : r.matchPrefix ci l = true
    · simp [hm, matchPrefix_iff.mp hm]
    · have hno : ¬∃ t, Matches ci r l t := fun hex => hm (matchPrefix_iff.mpr hex)
      simp [hm, hno]
  exact ⟨fun r s => key true r s.data, fun r s => key false r s.data,
    by decide, by decide, by decide, by decide, by decide⟩

/-- C7 counterexample: a float matcher with target value 0 and a
configured relative tolerance does not return a 0/1 verdict on the
parseable input `"1"` — the relative check divides by `abs(0)` and Python
raises `ZeroDivisionError` (the claim, as stated, predicts a returned
grade for every such matcher and input). -/
theorem float_matcher_zero_value_counterexample :
    floatMatcherGrade ⟨0, some 1, none⟩ "1" = none := by
  rw [show floatMatcherGrade ⟨0, some 1, none⟩ "1"
      = floatMatcherGradeVal ⟨0, some 1, none⟩
          (1 * (((1:ℕ):ℚ) + ((0:ℕ):ℚ)/(10:ℚ)^(0:ℕ))) from rfl]
  unfold floatMatcherGradeVal
  norm_num

/-- C7 (amended): the float matcher grades 0 exactly when the parsed
input deviates from the target by at least the configured absolute
tolerance or by at least the configured relative tolerance (each optional,
independently enforced, failing either disqualifies), and 1 otherwise —
*provided* no relative tolerance is configured or the target value is
nonzero; when a relative tolerance is configured with target value 0 and
the absolute check has not already disqualified, `grade` raises
`ZeroDivisionError` instead of returning.  With `value=10` and `atol=0.5`,
input `"10.4"` grades 1 and `"10.6"` grades 0. -/
theorem float_matcher_tolerance :
    (∀ (d : FloatMatcherDesc) (x : ℚ), d.rtol = none ∨ d.value ≠ 0 →
      (floatMatcherGradeVal d x = some 0 ↔
        (∃ a, d.atol = some a ∧ a ≤ |x - d.value|)
        ∨ (∃ r, d.rtol = some r ∧ r ≤ |x - d.value| / |d.value|))
      ∧ (floatMatcherGradeVal d x = some 1 ↔
        ¬((∃ a, d.atol = some a ∧ a ≤ |x - d.value|)
          ∨ (∃ r, d.rtol = some r ∧ r ≤ |x - d.value| / |d.value|))))
    ∧ (∀ (d : FloatMatcherDesc) (x r : ℚ), d.rtol = some r → d.value = 0 →
        ¬(∃ a, d.atol = some a ∧ a ≤ |x - d.value|) →
        floatMatcherGradeVal d x = none)
    ∧ floatMatcherGrade ⟨10, none, some (1/2)⟩ "10.4" = some 1
    ∧ floatMatcherGrade ⟨10, none, some (1/2)⟩ "10.6" = some 0 := by
  have hcond : ∀ (o : Option ℚ) (y : ℚ),
      ((match o with | some a => decide (a ≤ y) | none => false) = true)
        ↔ ∃ a, o = some a ∧ a ≤ y := by
    intro o y
    cases o <;> simp
  refine ⟨?_, ?_, ?_, ?_⟩
  · intro d x h
    have hA := hcond d.atol |x - d.value|
    have hR := hcond d.rtol (|x - d.value| / |d.value|)
    have hnz : ¬(d.rtol.isSome ∧ d.value = 0) := by
      rintro ⟨hs, hz⟩
      rcases h with h' | h'
      · rw [h'] at hs
        simp at hs
      · exact h' hz
    have key : floatMatcherGradeVal d x = some 0 ↔
        (∃ a, d.atol = some a ∧ a ≤ |x - d.value|)
        ∨ (∃ r, d.rtol = some r ∧ r ≤ |x - d.value| / |d.value|) := by
      unfold floatMatcherGradeVal
      split_ifs with h1 h2
      · simp [hA.mp h1]
      · simp [hR.mp h2]
      · constructor
        · intro hx
          exact absurd (Option.some.inj hx) (by norm_num)
        · rintro (hx | hx)
          · exact absurd (hA.mpr hx) h1
          · exact absurd (hR.mpr hx) h2
    have vals : floatMatcherGradeVal d x = some 0
        ∨ floatMatcherGradeVal d x = some 1 := by
      unfold floatMatcherGradeVal
      split_ifs with h1 h2
      · exact Or.inl rfl
      · exact Or.inl rfl
      · exact Or.inr rfl
    refine ⟨key, ?_⟩
    rcases vals with hv | hv <;> simp [hv, key.symm]
  · intro d x r hrt hv0 hA
    have hAb : (match d.atol with
        | some a => decide (a ≤ |x - d.value|)
        | none => false) ≠ true :=
      fun hb => hA ((hcond d.atol |x - d.value|).mp hb)
    unfold floatMatcherGradeVal
    rw [if_neg hAb, if_pos ⟨by simp [hrt], hv0⟩]
  · rw [show floatMatcherGrade ⟨10, none, some (1/2)⟩ "10.4"
        = floatMatcherGradeVal ⟨10, none, some (1/2)⟩
            (1 * (((10:ℕ):ℚ) + ((4:ℕ):ℚ)/(10:ℚ)^(1:ℕ))) from rfl]
    unfold floatMatcherGradeVal
    norm_num
    rw [abs_of_pos (by norm_num)]
    norm_num
  · rw [show floatMatcherGrade ⟨10, none, some (1/2)⟩ "10.6"
        = floatMatcherGradeVal ⟨10, none, some (1/2)⟩
            (1 * (((10:ℕ):ℚ) + ((6:ℕ):ℚ)/(10:ℚ)^(1:ℕ))) from rfl]
    unfold floatMatcherGradeVal
    norm_num
    rw [abs_of_pos (by norm_num)]
    norm_num

/-- Witness for `float_matcher_tolerance` at a nonzero target value (the
returning branch) and at target value 0 with a relative tolerance (the
raising branch). -/
theorem float_matcher_tolerance_witness :
    ((floatMatcherGradeVal ⟨10, none, some (1/2)⟩ (52/5) = some 0 ↔
        (∃ a, (some (1/2) : Option ℚ) = some a ∧ a ≤ |52/5 - 10|)
        ∨ (∃ r, (none : Option ℚ) = some r ∧ r ≤ |52/5 - 10| / |(10:ℚ)|))
      ∧ (floatMatcherGradeVal ⟨10, none, some (1/2)⟩ (52/5) = some 1 ↔
        ¬((∃ a, (some (1/2) : Option ℚ) = some a ∧ a ≤ |52/5 - 10|)
          ∨ (∃ r, (none : Option ℚ) = some r ∧ r ≤ |52/5 - 10| / |(10:ℚ)|))))
    ∧ floatMatcherGradeVal ⟨0, some 1, none⟩ 1 = none :=
  ⟨float_matcher_tolerance.1 ⟨10, none, some (1/2)⟩ (52/5)
      (Or.inr (by norm_num)),
   float_matcher_tolerance.2.1 ⟨0, some 1, none⟩ 1 1 rfl rfl
      (by rintro ⟨a, ha, _⟩; cases ha)⟩

/-- A float-matcher grade that returns (rather than raising) is 0 or 1. -/
theorem floatMatcherGradeVal_le_one (d : FloatMatcherDesc) (x : ℚ) {g : ℕ}
    (h : floatMatcherGradeVal d x = some g) : g ≤ 1 := by
  unfold floatMatcherGradeVal at h
  split_ifs at h <;> simp only [Option.some.injEq] at h <;> omega

/-- Every matcher grade is 0 or 1, hence at most 1. -/
theorem TextAnswerMatcher.grade_le_one (m : TextAnswerMatcher) (s : String)
    {g : ℕ} (h : m.grade s = some g) : g ≤ 1 := by
  cases m with
  | caseSensPlain p =>
    simp only [TextAnswerMatcher.grade, Option.some.injEq] at h
    split at h <;> omega
  | plain p =>
    simp only [TextAnswerMatcher.grade, Option.some.injEq] at h
    split at h <;> omega
  | regex r =>
    simp only [TextAnswerMatcher.grade, Option.some.injEq, regexMatcherGrade] at h
    split at h <;> omega
  | caseSensRegex r =>
    simp only [TextAnswerMatcher.grade, Option.some.injEq,
      caseSensRegexMatcherGrade] at h
    split at h <;> omega
  | symExpr p equiv =>
    simp only [TextAnswerMatcher.grade, Option.some.injEq] at h
    split at h <;> omega
  | float d =>
    simp only [TextAnswerMatcher.grade, floatMatcherGrade, Option.bind_eq_some] at h
    obtain ⟨x, _, hx⟩ := h
    exact floatMatcherGradeVal_le_one d x hx

/-- Evaluating the matcher pass of `TextQuestion.grade` when every matcher
grades without raising. -/
theorem gradePairs_eval (ms : List TextAnswerMatcher) (ans : String)
    (hok : ∀ m ∈ ms, (m.grade ans).isSome) :
    gradedPairs ms ans
      = some (ms.map (fun m => ((m.grade ans).getD 0, m.correct_answer_text))) := by
  induction ms with
  | nil => rfl
  | cons m rest ih =>
    obtain ⟨g, hg⟩ := Option.isSome_iff_exists.mp (hok m (List.mem_cons_self m rest))
    have hrest := ih (fun m' hm' => hok m' (List.mem_cons_of_mem m hm'))
    simp [gradedPairs, hg, hrest]

theorem le_of_pairLt {a b : ℕ × Option String} (h : pairLt a b = true) :
    a.1 ≤ b.1 := by
  unfold pairLt at h
  rcases Bool.or_eq_true_iff.mp h with h' | h'
  · exact le_of_lt (of_decide_eq_true h')
  · exact le_of_eq (eq_of_beq (Bool.and_eq_true_iff.mp h').1)

theorem le_of_not_pairLt {a b : ℕ × Option String} (h : pairLt a b = false) :
    b.1 ≤ a.1 := by
  unfold pairLt at h
  have h1 := (Bool.or_eq_false_iff.mp h).1
  exact Nat.le_of_not_lt (of_decide_eq_false h1)

/-- Python `max` over a nonempty list of pairs returns an element of the
list whose first component bounds every first component. -/
theorem pyMaxFold_spec (p : ℕ × Option String)
    (rest : List (ℕ × Option String)) :
    pyMaxFold p rest ∈ p :: rest
      ∧ ∀ x ∈ p :: rest, x.1 ≤ (pyMaxFold p rest).1 := by
  induction rest generalizing p with
  | nil =>
    refine ⟨List.mem_cons_self _ _, ?_⟩
    intro x hx
    rcases List.mem_cons.mp hx with rfl | hx'
    · exact le_refl _
    · cases hx'
  | cons y ys ih =>
    have step : pyMaxFold p (y :: ys) = pyMaxFold (if pairLt p y then y else p) ys :=
      rfl
    obtain ⟨ihm, ihle⟩ := ih (if pairLt p y then y else p)
    have hsub : (if pairLt p y then y else p) ∈ p :: y :: ys := by
      split
      · exact List.mem_cons_of_mem p (List.mem_cons_self y ys)
      · exact List.mem_cons_self p (y :: ys)
    constructor
    · rw [step]
      rcases List.mem_cons.mp ihm with hm | hm
      · rw [hm]
        exact hsub
      · exact List.mem_cons_of_mem p (List.mem_cons_of_mem y hm)
    · intro x hx
      rw [step]
      have hp : p.1 ≤ (if pairLt p y then y else p).1 := by
        by_cases hc : pairLt p y = true
        · rw [if_pos hc]
          exact le_of_pairLt hc
        · rw [if_neg hc]
      have hy : y.1 ≤ (if pairLt p y then y else p).1 := by
        by_cases hc : pairLt p y = true
        · rw [if_pos hc]
        · rw [if_neg hc]
          exact le_of_not_pairLt (Bool.not_eq_true _ ▸ hc)
      have hhead := ihle _ (List.mem_cons_self _ ys)
      rcases List.mem_cons.mp hx with rfl | hx'
      · exact le_trans hp hhead
      rcases List.mem_cons.mp hx' with rfl | hx''
      · exact le_trans hy hhead
      · exact ihle x (List.mem_cons_of_mem _ hx'')

/-- `findSome?` returns the image of the first element on which the
function succeeds. -/
theorem findSome?_first {α β : Type} (f : α → Option β)
    (pre post : List α) (m : α) (t : β)
    (hm : f m = some t) (hpre : ∀ m' ∈ pre, f m' = none) :
    (pre ++ m :: post).findSome? f = some t := by
  induction pre with
  | nil => simp [List.findSome?_cons, hm]
  | cons a rest ih =>
    have ha := hpre a (List.mem_cons_self a rest)
    simp only [List.cons_append, List.findSome?_cons, ha]
    exact ih (fun m' hm' => hpre m' (List.mem_cons_of_mem a hm'))

/-- C4 counterexample: when the first matcher able to supply a
correct-answer text supplies the *empty* string (a `case_sens_plain`
matcher with empty pattern, which passes validation since `""` is not
`None`), `correct_answer` trips the `assert` (course/page.py:1088) and
raises instead of displaying the text the claim predicts. -/
theorem text_question_correct_answer_empty_counterexample :
    textQuestionCorrectAnswer ⟨[.caseSensPlain ""]⟩ = none := rfl

/-- C4 (amended): for a text question with nonempty matcher list and a
present answer (all matchers grading without raising), the returned
correctness is the maximum of the matchers' 0/1 scores on the stored
(stripped) answer string — the normalized answer (lower-cased exactly when
no matcher is case-sensitive) is what appears HTML-escaped in the feedback
— and `correct_answer` displays the correct-answer text of the first
matcher able to supply one, provided that text is nonempty; when the first
supplied text is the empty string, `correct_answer` raises an assertion
error instead of displaying it. -/
theorem text_question_grade_policy (q : TextQuestion) (ad : TextAnswerData)
    (hne : q.matchers ≠ [])
    (hok : ∀ m ∈ q.matchers, (m.grade ad.answer).isSome) :
    (∃ g : ℕ,
      textQuestionGrade q (some ad)
        = .ok ⟨some (g : ℚ), get_auto_feedback (some (g : ℚ)),
            .value (htmlEscape
              (if q.matchers.any (fun m => m.is_case_sensitive) then ad.answer
               else ad.answer.toLower))⟩
      ∧ g ∈ q.matchers.map (fun m => (m.grade ad.answer).getD 0)
      ∧ ∀ x ∈ q.matchers.map (fun m => (m.grade ad.answer).getD 0), x ≤ g)
    ∧ (∀ (pre post : List TextAnswerMatcher) (m : TextAnswerMatcher) (t : String),
        q.matchers = pre ++ m :: post →
        m.correct_answer_text = some t →
        t ≠ "" →
        (∀ m' ∈ pre, m'.correct_answer_text = none) →
        textQuestionCorrectAnswer q
          = some ("A correct answer is: \x27" ++ t ++ "\x27."))
    ∧ (∀ (pre post : List TextAnswerMatcher) (m : TextAnswerMatcher),
        q.matchers = pre ++ m :: post →
        m.correct_answer_text = some "" →
        (∀ m' ∈ pre, m'.correct_answer_text = none) →
        textQuestionCorrectAnswer q = none) := by
  refine ⟨?_, ?_, ?_⟩
  · obtain ⟨m₀, ms, hq⟩ := List.exists_cons_of_ne_nil hne
    have hpairs := gradePairs_eval q.matchers ad.answer hok
    rw [hq] at hpairs
    have hmap : (m₀ :: ms).map
        (fun m => ((m.grade ad.answer).getD 0, m.correct_answer_text))
        = ((m₀.grade ad.answer).getD 0, m₀.correct_answer_text)
          :: ms.map (fun m => ((m.grade ad.answer).getD 0, m.correct_answer_text)) :=
      List.map_cons _ _ _
    obtain ⟨hmem, hle⟩ := pyMaxFold_spec
      ((m₀.grade ad.answer).getD 0, m₀.correct_answer_text)
      (ms.map (fun m => ((m.grade ad.answer).getD 0, m.correct_answer_text)))
    set best := pyMaxFold
      ((m₀.grade ad.answer).getD 0, m₀.correct_answer_text)
      (ms.map (fun m => ((m.grade ad.answer).getD 0, m.correct_answer_text)))
      with hbest
    rw [← hmap] at hmem hle
    refine ⟨best.1, ?_, ?_, ?_⟩
    · have hgoal : textQuestionGrade q (some ad)
          = AnswerFeedback.make (some (best.1 : ℚ)) none
              (.value (htmlEscape
                (if q.matchers.any (fun m => m.is_case_sensitive) then ad.answer
                 else ad.answer.toLower))) := by
        simp only [textQuestionGrade, hq, hpairs, hmap]
      have hle1 : best.1 ≤ 1 := by
        obtain ⟨m, hmmem, hmeq⟩ := List.mem_map.mp (hq ▸ hmem)
        obtain ⟨g', hg'⟩ := Option.isSome_iff_exists.mp (hok m hmmem)
        have := m.grade_le_one ad.answer hg'
        rw [← hmeq]
        simp [hg', this]
      have hnolt : ¬((best.1 : ℚ) < 0 ∨ 1 < (best.1 : ℚ)) := by
        push_neg
        constructor
        · positivity
        · exact_mod_cast hle1
      rw [hgoal]
      simp only [AnswerFeedback.make, if_neg hnolt, Option.getD_none]
    · obtain ⟨m, hmmem, hmeq⟩ := List.mem_map.mp (hq ▸ hmem)
      exact List.mem_map.mpr ⟨m, hmmem, congrArg Prod.fst hmeq⟩
    · intro x hx
      obtain ⟨m, hmmem, hmeq⟩ := List.mem_map.mp hx
      have : ((m.grade ad.answer).getD 0, m.correct_answer_text)
          ∈ q.matchers.map
            (fun m => ((m.grade ad.answer).getD 0, m.correct_answer_text)) :=
        List.mem_map.mpr ⟨m, hmmem, rfl⟩
      have := hle _ (hq ▸ this)
      rw [← hmeq]
      exact this
  · intro pre post m t hq hm ht hpre
    unfold textQuestionCorrectAnswer
    rw [hq, findSome?_first TextAnswerMatcher.correct_answer_text pre post m t hm hpre]
    show (if t = "" then none else some _) = some _
    rw [if_neg ht]
  · intro pre post m hq hm hpre
    unfold textQuestionCorrectAnswer
    rw [hq, findSome?_first TextAnswerMatcher.correct_answer_text pre post m "" hm hpre]
    rfl

/-- Witness for `text_question_grade_policy`: a question with a
case-insensitive plain matcher for `"Paris"` and a case-sensitive plain
matcher behind it, graded on the answer `"paris"`. -/
theorem text_question_grade_policy_witness :
    (∃ g : ℕ,
      textQuestionGrade ⟨[.plain "Paris", .caseSensPlain "Paris"]⟩
          (some ⟨"paris"⟩)
        = .ok ⟨some (g : ℚ), get_auto_feedback (some (g : ℚ)),
            .value (htmlEscape
              (if ([TextAnswerMatcher.plain "Paris",
                    .caseSensPlain "Paris"].any
                  (fun m => m.is_case_sensitive)) then "paris"
               else "paris".toLower))⟩
      ∧ g ∈ [TextAnswerMatcher.plain "Paris",
              .caseSensPlain "Paris"].map
            (fun m => (m.grade "paris").getD 0)
      ∧ ∀ x ∈ [TextAnswerMatcher.plain "Paris",
              .caseSensPlain "Paris"].map
            (fun m => (m.grade "paris").getD 0), x ≤ g)
    ∧ (∀ (pre post : List TextAnswerMatcher) (m : TextAnswerMatcher) (t : String),
        [TextAnswerMatcher.plain "Paris", .caseSensPlain "Paris"]
          = pre ++ m :: post →
        m.correct_answer_text = some t →
        t ≠ "" →
        (∀ m' ∈ pre, m'.correct_answer_text = none) →
        textQuestionCorrectAnswer ⟨[.plain "Paris", .caseSensPlain "Paris"]⟩
          = some ("A correct answer is: \x27" ++ t ++ "\x27."))
    ∧ (∀ (pre post : List TextAnswerMatcher) (m : TextAnswerMatcher),
        [TextAnswerMatcher.plain "Paris", .caseSensPlain "Paris"]
          = pre ++ m :: post →
        m.correct_answer_text = some "" →
        (∀ m' ∈ pre, m'.correct_answer_text = none) →
        textQuestionCorrectAnswer ⟨[.plain "Paris", .caseSensPlain "Paris"]⟩
          = none) :=
  text_question_grade_policy ⟨[.plain "Paris", .caseSensPlain "Paris"]⟩
    ⟨"paris"⟩ (by simp)
    (by
      intro m hm
      rcases List.mem_cons.mp hm with rfl | hm'
      · rfl
      rcases List.mem_cons.mp hm' with rfl | hm''
      · rfl
      · cases hm'')

theorem joinLines_cons_ne_nil (s : String) (l : List String) (h : l ≠ []) :
    joinLines (s :: l) = s ++ "\n" ++ joinLines l := by
  cases l with
  | nil => exact absurd rfl h
  | cons t rest => rfl

/-- Any element of the joined list appears inside the join. -/
theorem joinLines_contains (l₁ l₂ : List String) (x : String) :
    ∃ pre post, joinLines (l₁ ++ x :: l₂) = pre ++ x ++ post := by
  induction l₁ with
  | nil =>
    cases l₂ with
    | nil =>
      refine ⟨"", "", ?_⟩
      show joinLines [x] = "" ++ x ++ ""
      rw [String.append_empty]
      rfl
    | cons y ys =>
      refine ⟨"", "\n" ++ joinLines (y :: ys), ?_⟩
      show joinLines (x :: y :: ys) = "" ++ x ++ ("\n" ++ joinLines (y :: ys))
      have h1 : joinLines (x :: y :: ys) = (x ++ "\n") ++ joinLines (y :: ys) := rfl
      rw [h1, String.append_assoc]
      rfl
  | cons y ys ih =>
    obtain ⟨pre, post, hp⟩ := ih
    refine ⟨y ++ "\n" ++ pre, post, ?_⟩
    have hne : ys ++ x :: l₂ ≠ [] := by simp
    rw [List.cons_append, joinLines_cons_ne_nil y _ hne, hp]
    simp [String.append_assoc]

/-- C8: when the execution collaborator reports `{result: "timeout"}`, the
code-question grade resolves deterministically to an `AnswerFeedback`
(never left pending) whose correctness is forced to 0 — whatever points
the response carried — and whose feedback text contains the
time-limit-exceeded paragraph. -/
theorem python_code_grade_timeout (timeout : ℚ) (ad : CodeAnswerData)
    (response : RunResponse) (h : response.result = "timeout") :
    ∃ af, pythonCodeGrade timeout (some ad) response = .ok af
      ∧ af.correctness = some 0
      ∧ ∃ pre post, af.feedback = pre ++ timeoutFeedback timeout ++ post := by
  have hd : resultDispatch timeout response response.points
      = .ok ([timeoutFeedback timeout], some 0) := by
    unfold resultDispatch
    rw [h]
    rfl
  have hmk : pythonCodeGrade timeout (some ad) response
      = AnswerFeedback.make (some 0)
          (some (joinLines ((match response.points with
            | some p => ["<p><b>" ++ get_auto_feedback (some p) ++ "</b></p>"]
            | none => [])
            ++ [timeoutFeedback timeout] ++ responseExtraBits response)))
          (.value ("<pre>" ++ ad.answer ++ "</pre>")) := by
    unfold pythonCodeGrade
    rw [hd]
  rw [hmk]
  simp only [AnswerFeedback.make]
  rw [if_neg (by norm_num)]
  refine ⟨_, rfl, rfl, ?_⟩
  simp only [Option.getD_some]
  have hj := joinLines_contains
    (match response.points with
      | some p => ["<p><b>" ++ get_auto_feedback (some p) ++ "</b></p>"]
      | none => [])
    (responseExtraBits response) (timeoutFeedback timeout)
  simpa [List.append_assoc] using hj

/-- Witness for `python_code_grade_timeout`: a concrete timeout response. -/
theorem python_code_grade_timeout_witness :
    ∃ af, pythonCodeGrade 3 (some ⟨"print 1"⟩)
        ⟨"timeout", none, none, none, none, none, none⟩ = .ok af
      ∧ af.correctness = some 0
      ∧ ∃ pre post, af.feedback = pre ++ timeoutFeedback 3 ++ post :=
  python_code_grade_timeout 3 ⟨"print 1"⟩
    ⟨"timeout", none, none, none, none, none, none⟩ rfl

/-- C9 counterexample: with a present answer and *absent* `grade_data`,
`PythonCodeQuestionWithHumanTextFeedback.grade` does not return `None` —
it returns an `AnswerFeedback` (with correctness `None`). -/
theorem python_code_human_grade_unreleased_counterexample :
    ∃ af, pythonCodeHumanGrade ⟨3, 4, 2⟩ (some ⟨"x"⟩) none
        ⟨"success", none, none, none, none, none, none⟩
        (fun s => s) (fun _ _ _ _ => "tmpl")
      = .ok (some af) :=
  ⟨⟨none, "tmpl", .notAvailable⟩, rfl⟩

/-- C9 (amended): with a present answer, a page graded purely through the
human-text-feedback contract yields no grade at all (returns `None`)
whenever `grade_data` is absent or unreleased; the code question with
human feedback instead returns an `AnswerFeedback` whose correctness is
`None` (no grade value yet) in those situations. -/
theorem human_feedback_no_grade_until_release :
    (∀ (gd : Option GradeData) (markupRender : String → String),
      (gd = none ∨ ∃ g, gd = some g ∧ g.released = false) →
      humanTextFeedbackGrade (some ()) gd markupRender = .ok none)
    ∧ (∀ (q : PythonCodeHumanQuestionDesc) (ad : CodeAnswerData)
        (gd : Option GradeData) (response : RunResponse)
        (markupRender : String → String)
        (render : Option ℚ → AnswerFeedback → Option String → Option ℚ → String)
        (cf : AnswerFeedback),
        pythonCodeGrade q.timeout (some ad) response = .ok cf →
        (gd = none ∨ ∃ g, gd = some g ∧ g.released = false) →
        ∃ af, pythonCodeHumanGrade q (some ad) gd response markupRender render
            = .ok (some af)
          ∧ af.correctness = none) := by
  constructor
  · rintro gd mr (rfl | ⟨g, rfl, hrel⟩)
    · rfl
    · simp [humanTextFeedbackGrade, hrel]
  · rintro q ad gd response mr render cf hcf hgd
    have hgd' : (match gd with
        | some g => if !g.released then none else some g
        | none => (none : Option GradeData)) = none := by
      rcases hgd with rfl | ⟨g, rfl, hrel⟩
      · rfl
      · simp [hrel]
    refine ⟨⟨none, render none cf none none, .notAvailable⟩, ?_, rfl⟩
    simp only [pythonCodeHumanGrade]
    rw [hgd', hcf]
    rcases hc : cf.correctness with _ | c <;>
      simp [hc, AnswerFeedback.make] <;> rfl

/-- Witness for `human_feedback_no_grade_until_release` at absent
`grade_data` and a success response without points. -/
theorem human_feedback_no_grade_until_release_witness :
    humanTextFeedbackGrade (some ()) none (fun s => s) = .ok none
    ∧ ∃ af, pythonCodeHumanGrade ⟨3, 4, 2⟩ (some ⟨"x"⟩) none
        ⟨"success", none, none, none, none, none, none⟩
        (fun s => s) (fun _ _ _ _ => "tmpl")
      = .ok (some af) ∧ af.correctness = none :=
  ⟨human_feedback_no_grade_until_release.1 none (fun s => s) (Or.inl rfl),
   human_feedback_no_grade_until_release.2 ⟨3, 4, 2⟩ ⟨"x"⟩ none
     ⟨"success", none, none, none, none, none, none⟩
     (fun s => s) (fun _ _ _ _ => "tmpl")
     ⟨none, "", .value "<pre>x</pre>"⟩ rfl (Or.inl rfl)⟩

/-- C10: every answerable page variant — text question, choice question,
code question, purely human-graded page, and code question with human
feedback — grades a `None` answer as an `AnswerFeedback` with correctness
0 and feedback text `"No answer provided."`, rather than returning `None`
or raising. -/
theorem grade_none_answer_feedback :
    (∀ (q : TextQuestion),
      textQuestionGrade q none
        = .ok ⟨some 0, "No answer provided.", .notAvailable⟩)
    ∧ (∀ (q : ChoiceQuestionDesc) (pd : ChoicePageData),
      choiceQuestionGrade q pd none
        = .ok ⟨some 0, "No answer provided.", .noAnswer⟩)
    ∧ (∀ (timeout : ℚ) (response : RunResponse),
      pythonCodeGrade timeout none response
        = .ok ⟨some 0, "No answer provided.", .noAnswer⟩)
    ∧ (∀ (gd : Option GradeData) (mr : String → String),
      humanTextFeedbackGrade none gd mr
        = .ok (some ⟨some 0, "No answer provided.", .notAvailable⟩))
    ∧ (∀ (q : PythonCodeHumanQuestionDesc) (gd : Option GradeData)
        (response : RunResponse) (mr : String → String)
        (render : Option ℚ → AnswerFeedback → Option String → Option ℚ → String),
      pythonCodeHumanGrade q none gd response mr render
        = .ok (some ⟨some 0, "No answer provided.", .notAvailable⟩)) := by
  have hmk : ∀ na, AnswerFeedback.make (some 0) (some "No answer provided.") na
      = .ok ⟨some 0, "No answer provided.", na⟩ := by
    intro na
    simp only [AnswerFeedback.make]
    rw [if_neg (by norm_num)]
    rfl
  refine ⟨?_, ?_, ?_, ?_, ?_⟩
  · intro q
    show AnswerFeedback.make (some 0) (some "No answer provided.") .notAvailable = _
    exact hmk _
  · intro q pd
    show AnswerFeedback.make (some 0) (some "No answer provided.") .noAnswer = _
    exact hmk _
  · intro timeout response
    show AnswerFeedback.make (some 0) (some "No answer provided.") .noAnswer = _
    exact hmk _
  · intro gd mr
    show (AnswerFeedback.make (some 0) (some "No answer provided.")
      .notAvailable).map some = _
    rw [hmk]
    rfl
  · intro q gd response mr render
    show (AnswerFeedback.make (some 0) (some "No answer provided.")
      .notAvailable).map some = _
    rw [hmk]
    rfl

/-- C1: `consume` is a pure deterministic fold — replaying the same
ordered event sequence for one (participant, opportunity) pair yields the
identical state (same qualitative state, points, max points), with no
dependence on a clock or randomness. -/
theorem grade_consume_deterministic (strategy : GradeAggregationStrategy)
    (events₁ events₂ : List GradeChange) (h : events₁ = events₂) :
    GradeStateMachine.consume strategy events₁
      = GradeStateMachine.consume strategy events₂ := by
  rw [h]

/-- Witness for `grade_consume_deterministic` on a concrete event log. -/
theorem grade_consume_deterministic_witness :
    GradeStateMachine.consume .max_grade
        [⟨.grading_started, none, 10, 1, 0⟩, ⟨.graded, some 7, 10, 1, 1⟩]
      = GradeStateMachine.consume .max_grade
        [⟨.grading_started, none, 10, 1, 0⟩, ⟨.graded, some 7, 10, 1, 1⟩] :=
  grade_consume_deterministic .max_grade
    [⟨.grading_started, none, 10, 1, 0⟩, ⟨.graded, some 7, 10, 1, 1⟩]
    [⟨.grading_started, none, 10, 1, 0⟩, ⟨.graded, some 7, 10, 1, 1⟩] rfl

/-- C5: a choice question grades a present in-range selection as
correctness 1 exactly when the un-permuted index (the stored permutation
applied to the selected index) is tagged `~CORRECT~`, and 0 otherwise; and
when `shuffle` is absent or false, `make_page_data` stores the identity
permutation — so selecting a tagged-correct choice yields correctness 1
whatever the stored permutation is. -/
theorem choice_question_grade_correct (q : ChoiceQuestionDesc)
    (shuffler : List ℕ → List ℕ) (pd : ChoicePageData) (ad : ChoiceAnswerData)
    (hin : ad.choice < pd.permutation.length) :
    (q.shuffle = none ∨ q.shuffle = some false →
      choiceMakePageData q shuffler = ⟨List.range q.choices.length⟩)
    ∧ (∃ af, choiceQuestionGrade q pd (some ad) = .ok af
        ∧ (af.correctness = some 1
            ↔ pd.permutation.getD ad.choice 0 ∈ unpermuted_correct_indices q)
        ∧ (af.correctness = some 1 ∨ af.correctness = some 0)) := by
  constructor
  · rintro (h | h) <;> simp [choiceMakePageData, h]
  · by_cases hmem :
        pd.permutation.getD ad.choice 0 ∈ unpermuted_correct_indices q
    · refine ⟨⟨some 1, get_auto_feedback (some 1),
        .value (process_choice_string
          (q.choices.getD (pd.permutation.getD ad.choice 0) ""))⟩, ?_, ?_, ?_⟩
      · simp only [choiceQuestionGrade, if_pos hmem, AnswerFeedback.make,
          Option.getD_none]
        rw [if_neg (by norm_num)]
      · exact ⟨fun _ => hmem, fun _ => rfl⟩
      · exact Or.inl rfl
    · refine ⟨⟨some 0, get_auto_feedback (some 0),
        .value (process_choice_string
          (q.choices.getD (pd.permutation.getD ad.choice 0) ""))⟩, ?_, ?_, ?_⟩
      · simp only [choiceQuestionGrade, if_neg hmem, AnswerFeedback.make,
          Option.getD_none]
        rw [if_neg (by norm_num)]
      · simp only [Option.some.injEq]
        constructor
        · intro h
          exact absurd h (by norm_num)
        · intro h
          exact absurd h hmem
      · exact Or.inr rfl

/-- Witness for `choice_question_grade_correct`: four choices, the second
tagged correct, `shuffle=false`, identity permutation, second choice
selected. -/
theorem choice_question_grade_correct_witness :
    ((⟨["A", "~CORRECT~B", "C", "D"], some false⟩ : ChoiceQuestionDesc).shuffle
        = none
      ∨ (⟨["A", "~CORRECT~B", "C", "D"], some false⟩
          : ChoiceQuestionDesc).shuffle = some false →
      choiceMakePageData ⟨["A", "~CORRECT~B", "C", "D"], some false⟩ id
        = ⟨List.range
            (["A", "~CORRECT~B", "C", "D"] : List String).length⟩)
    ∧ (∃ af, choiceQuestionGrade ⟨["A", "~CORRECT~B", "C", "D"], some false⟩
          ⟨[0, 1, 2, 3]⟩ (some ⟨1⟩) = .ok af
        ∧ (af.correctness = some 1
            ↔ ([0, 1, 2, 3] : List ℕ).getD 1 0
              ∈ unpermuted_correct_indices
                ⟨["A", "~CORRECT~B", "C", "D"], some false⟩)
        ∧ (af.correctness = some 1 ∨ af.correctness = some 0)) :=
  choice_question_grade_correct ⟨["A", "~CORRECT~B", "C", "D"], some false⟩
    id ⟨[0, 1, 2, 3]⟩ ⟨1⟩ (by norm_num)

/-- C2: constructing `AnswerFeedback(correctness=c)` fails (raises) exactly
when `c` is a present value outside `[0, 1]`; inside `[0, 1]` it succeeds,
and when no feedback text is supplied the feedback is auto-generated from
`c` — in particular at `c = 0`, `c = 1`, `c = 0.5`, `c = 0.75` and
`c = None`. -/
theorem answer_feedback_construction (c : ℚ) :
    ((c < 0 ∨ 1 < c) →
      AnswerFeedback.make (some c) none .notAvailable
        = .error "Invalid correctness value")
    ∧ (0 ≤ c → c ≤ 1 →
      AnswerFeedback.make (some c) none .notAvailable
        = .ok ⟨some c, get_auto_feedback (some c), .notAvailable⟩)
    ∧ AnswerFeedback.make (some 0) none .notAvailable
        = .ok ⟨some 0, "Your answer is not correct.", .notAvailable⟩
    ∧ AnswerFeedback.make (some 1) none .notAvailable
        = .ok ⟨some 1, "Your answer is correct.", .notAvailable⟩
    ∧ AnswerFeedback.make (some (1/2)) none .notAvailable
        = .ok ⟨some (1/2), "Your answer is somewhat correct. (50.0 %)",
            .notAvailable⟩
    ∧ AnswerFeedback.make (some (3/4)) none .notAvailable
        = .ok ⟨some (3/4), "Your answer is mostly correct. (75.0 %)",
            .notAvailable⟩
    ∧ AnswerFeedback.make none none .notAvailable
        = .ok ⟨none, "(No information on correctness of answer.)",
            .notAvailable⟩ := by
  refine ⟨?_, ?_, ?_, ?_, ?_, ?_, by rfl⟩
  · intro h
    simp only [AnswerFeedback.make, if_pos h]
  · intro h0 h1
    have h : ¬(c < 0 ∨ 1 < c) := by
      push_neg
      exact ⟨h0, h1⟩
    simp only [AnswerFeedback.make, if_neg h, Option.getD_none]
  · simp only [AnswerFeedback.make, Option.getD_none, get_auto_feedback]
    norm_num
  · simp only [AnswerFeedback.make, Option.getD_none, get_auto_feedback]
    norm_num
  · have h : round ((10:ℚ) * (100 * (1/2))) = 500 := by norm_num [round_eq]
    simp only [AnswerFeedback.make, Option.getD_none, get_auto_feedback,
      formatFixed1, h]
    norm_num
    rfl
  · have h : round ((10:ℚ) * (100 * (3/4))) = 750 := by norm_num [round_eq]
    simp only [AnswerFeedback.make, Option.getD_none, get_auto_feedback,
      formatFixed1, h]
    norm_num
    rfl

/-- Witness for `answer_feedback_construction` at concrete inputs. -/
theorem answer_feedback_construction_witness :
    AnswerFeedback.make (some 2) none .notAvailable
      = .error "Invalid correctness value"
    ∧ AnswerFeedback.make (some (3/4)) none .notAvailable
      = .ok ⟨some (3/4), get_auto_feedback (some (3/4)), .notAvailable⟩ :=
  ⟨(answer_feedback_construction 2).1 (Or.inr (by norm_num)),
   (answer_feedback_construction (3/4)).2.1 (by norm_num) (by norm_num)⟩

/-- C3: for every successfully constructed `AnswerFeedback` (its correctness,
if present, lies in `[0, 1]`), `from_json (as_json x)` reproduces `x`
exactly: correctness, feedback, and the three-valued normalized answer,
including the `NoNormalizedAnswerAvailable` case whose JSON key is omitted
by `as_json` and restored by `from_json`. -/
theorem answer_feedback_roundtrip (af : AnswerFeedback)
    (h : ∀ c, af.correctness = some c → 0 ≤ c ∧ c ≤ 1) :
    AnswerFeedback.from_json af.as_json = .ok af := by
  obtain ⟨co, fb, na⟩ := af
  cases co with
  | none =>
    cases na <;>
      simp [AnswerFeedback.as_json, AnswerFeedback.from_json, AnswerFeedback.make]
  | some c =>
    obtain ⟨h0, h1⟩ := h c rfl
    have hno : ¬(c < 0 ∨ 1 < c) := by
      push_neg
      exact ⟨h0, h1⟩
    cases na <;>
      simp [AnswerFeedback.as_json, AnswerFeedback.from_json, AnswerFeedback.make,
        if_neg hno]

/-- Witness for `answer_feedback_roundtrip` at a concrete feedback value. -/
theorem answer_feedback_roundtrip_witness :
    AnswerFeedback.from_json (AnswerFeedback.as_json ⟨some (1/2), "fb", .noAnswer⟩)
      = .ok ⟨some (1/2), "fb", .noAnswer⟩ :=
  answer_feedback_roundtrip ⟨some (1/2), "fb", .noAnswer⟩
    (fun c hc => by
      obtain rfl : (1/2 : ℚ) = c := Option.some.inj hc
      constructor <;> norm_num)

end Relate
